import Mathlib

/-!
Verification of the solder-cortex wallet pipeline.

This file is a shallow embedding, in Lean 4, of the parts of the
solder-cortex Rust repository that the specification talks about:

* the normaliser (`src/indexer/parser.rs`): `parse_transaction`,
  `parse_swap`, `parse_lending_operation`, protocol identification;
* the lenient decoder (`src/indexer/lyslabs.rs`):
  `LysTransaction.from_value` over a model of JSON values, and the
  reconnect loop of `start_continuous_stream`;
* the subscription manager (`src/indexer/mod.rs`): `stop_subscription`,
  `is_subscribed`, `list_subscriptions`, `process_transaction_stream`;
* the risk metrics (`src/metrics/risk.rs`): `compute_risk` and
  `calculate_risk_score`;
* the conviction engine (`crates/cortex-core/src/conviction.rs`) and its
  caller (`crates/cortex-unified-mcp/src/defi.rs`).

Modelling conventions, used consistently below:

* `rust_decimal::Decimal` and `f64` are both modelled as `ℚ`.  Every
  numeric literal occurring in the relevant code paths is exactly
  representable; the one lossy conversion in the sources
  (`Decimal -> String -> f64` inside `calculate_risk_score`) is modelled
  as exact, and the final `as u8` cast as a saturating floor.
* timestamps of type `chrono::DateTime` (`started_at`, `analyzed_at`,
  `opened_at`, `updated_at`, `placed_at`) are omitted from the record
  types: no claim mentions them and they are read from the ambient clock.
* fallible Rust functions returning `Option`/`Result` are modelled with
  `Option`/`Except`.
* effects of the streaming code (connect, sleep, cancel) are reified as
  explicit action lists / state transitions.
-/

/-! ## String helpers

Rust `str::contains` / `starts_with` / `to_lowercase` / `to_uppercase`
are modelled over `List Char`. -/

/-- Does the first character list start with the second one? -/
def charsStartWith : List Char → List Char → Bool
  | _, [] => true
  | [], _ :: _ => false
  | a :: as, b :: bs => a == b && charsStartWith as bs

/-- Substring containment on character lists (Rust `str::contains`). -/
def charsContain : List Char → List Char → Bool
  | [], pat => pat.isEmpty
  | s@(_ :: rest), pat => charsStartWith s pat || charsContain rest pat

/-- Rust `str::contains` for a string pattern. -/
def strContains (s pat : String) : Bool :=
  charsContain s.toList pat.toList

/-- Rust `str::to_lowercase` (ASCII is all the sources use). -/
def strLower (s : String) : String :=
  String.mk (s.toList.map Char.toLower)

/-- Rust `str::to_uppercase` (ASCII is all the sources use). -/
def strUpper (s : String) : String :=
  String.mk (s.toList.map Char.toUpper)

/-! ## Core enums (`src/types.rs`) -/

/-- `Protocol` from `src/types.rs`. -/
inductive Protocol where
  | Jupiter | Raydium | Kamino | Meteora | Orca | PumpFun
  deriving DecidableEq, Repr

/-- `TransactionType` from `src/types.rs`. -/
inductive TransactionType where
  | Swap | Deposit | Withdraw | Borrow | Repay | AddLiquidity | RemoveLiquidity
  deriving DecidableEq, Repr

/-! ## JSON values (model of `serde_json::Value`)

`serde_json` distinguishes integer and floating numbers; we carry a
rational together with an integrality marker sufficient for the
`as_i64` / `as_u64` / `as_f64` accessors used by the lenient decoder. -/

inductive JsonVal where
  | null
  | bool (b : Bool)
  | int (n : ℤ)
  | num (q : ℚ)
  | str (s : String)
  | arr (xs : List JsonVal)
  | obj (fields : List (String × JsonVal))
  deriving Repr

namespace JsonVal

/-- Field lookup on a JSON object (`serde_json::Map::get`). -/
def get : JsonVal → String → Option JsonVal
  | obj fields, key => fields.lookup key
  | _, _ => none

/-- `Value::as_str`. -/
def as_str : JsonVal → Option String
  | str s => some s
  | _ => none

/-- `Value::as_i64`. -/
def as_i64 : JsonVal → Option ℤ
  | int n => some n
  | _ => none

/-- `Value::as_u64`. -/
def as_u64 : JsonVal → Option ℕ
  | int n => if 0 ≤ n then some n.toNat else none
  | _ => none

/-- `Value::as_f64`. -/
def as_f64 : JsonVal → Option ℚ
  | int n => some (n : ℚ)
  | num q => some q
  | _ => none

/-- `Value::as_array`. -/
def as_array : JsonVal → Option (List JsonVal)
  | arr xs => some xs
  | _ => none

/-- `Value::as_object` (we keep the field list itself). -/
def as_object : JsonVal → Option (List (String × JsonVal))
  | obj fields => some fields
  | _ => none

end JsonVal

/-! ## LYS Labs records (`src/indexer/lyslabs.rs`) -/

/-- `LysTokenAmount` from `src/indexer/lyslabs.rs`. -/
structure LysTokenAmount where
  mint : String
  amount : String
  ui_amount : ℚ
  decimals : ℕ
  owner : String
  deriving DecidableEq, Repr

/-- `LysTransaction` from `src/indexer/lyslabs.rs`. -/
structure LysTransaction where
  tx_signature : String
  slot : ℕ
  block_time : ℤ
  decoder_type : String
  event_type : String
  mint : String
  source : String
  destination : String
  fee_payer : String
  program_id : String
  pool : String
  token_in : Option LysTokenAmount
  token_out : Option LysTokenAmount
  accounts : List String
  ui_amount : ℚ
  amount : String
  deriving DecidableEq, Repr

/-- `LysTokenAmount::from_value`. -/
def LysTokenAmount.from_value (v : JsonVal) : Option LysTokenAmount := do
  let obj ← v.as_object
  let j := JsonVal.obj obj
  let mint := ((j.get "mint").bind JsonVal.as_str).getD ""
  let amount :=
    match j.get "amount" with
    | some w =>
      match w.as_str with
      | some s => s
      | none =>
        match w.as_u64 with
        | some n => toString n
        | none => "0"
    | none => ""
  let ui_amount := (((j.get "uiAmount").orElse fun _ => j.get "ui_amount").bind JsonVal.as_f64).getD 0
  let decimals := ((j.get "decimals").bind JsonVal.as_u64).getD 0
  let owner := (((j.get "owner").orElse fun _ => j.get "authority").bind JsonVal.as_str).getD ""
  pure { mint, amount, ui_amount, decimals, owner }

/-- `LysTransaction::from_value`: the lenient decoder for live stream
records.  A record without a signature is rejected. -/
def LysTransaction.from_value (v : JsonVal) : Option LysTransaction := do
  let obj ← v.as_object
  let j := JsonVal.obj obj
  let tx_signature :=
    ((((j.get "txSignature").orElse fun _ => j.get "signature").orElse
        fun _ => j.get "tx_signature").bind JsonVal.as_str).getD ""
  if tx_signature = "" then none else
  let slot := ((j.get "slot").bind JsonVal.as_u64).getD 0
  let block_time := (((j.get "blockTime").orElse fun _ => j.get "block_time").bind JsonVal.as_i64).getD 0
  let decoder_type := (((j.get "decoderType").orElse fun _ => j.get "decoder_type").bind JsonVal.as_str).getD ""
  let event_type := (((j.get "eventType").orElse fun _ => j.get "event_type").bind JsonVal.as_str).getD ""
  let mint := ((j.get "mint").bind JsonVal.as_str).getD ""
  let source :=
    ((((j.get "source").orElse fun _ => j.get "from").orElse
        fun _ => j.get "authority").bind JsonVal.as_str).getD ""
  let destination := (((j.get "destination").orElse fun _ => j.get "to").bind JsonVal.as_str).getD ""
  let fee_payer := (((j.get "feePayer").orElse fun _ => j.get "fee_payer").bind JsonVal.as_str).getD ""
  let program_id := (((j.get "programId").orElse fun _ => j.get "program_id").bind JsonVal.as_str).getD ""
  let pool :=
    ((((j.get "pool").orElse fun _ => j.get "ammId").orElse
        fun _ => j.get "poolAddress").bind JsonVal.as_str).getD ""
  let token_in := (((j.get "tokenIn").orElse fun _ => j.get "token_in")).bind LysTokenAmount.from_value
  let token_out := (((j.get "tokenOut").orElse fun _ => j.get "token_out")).bind LysTokenAmount.from_value
  let accounts₀ : List String :=
    (if source = "" then [] else [source]) ++
    (if destination = "" then [] else [destination]) ++
    (if fee_payer = "" then [] else [fee_payer])
  let accounts₁ :=
    match token_in with
    | some ti => if ti.owner = "" then [] else [ti.owner]
    | none => []
  let accounts₂ :=
    match token_out with
    | some t => if t.owner = "" then [] else [t.owner]
    | none => []
  let accounts₃ :=
    match (j.get "accounts").bind JsonVal.as_array with
    | some accs => accs.filterMap JsonVal.as_str
    | none => []
  let ui_amount :=
    match (j.get "uiAmount").orElse fun _ => j.get "ui_amount" with
    | some w =>
      match w.as_f64 with
      | some n => n
      | none =>
        match w.as_object with
        | some fields => ((JsonVal.obj fields |>.get "value").bind JsonVal.as_f64).getD 0
        | none => 0
    | none => 0
  let amount :=
    match j.get "amount" with
    | some w =>
      match w.as_str with
      | some s => s
      | none =>
        match w.as_u64 with
        | some n => toString n
        | none =>
          match w.as_i64 with
          | some n => toString n
          | none => "0"
    | none => ""
  pure { tx_signature, slot, block_time, decoder_type, event_type, mint, source,
         destination, fee_payer, program_id, pool, token_in, token_out,
         accounts := accounts₀ ++ accounts₁ ++ accounts₂ ++ accounts₃, ui_amount, amount }

/-- `LysTransaction::involves_wallet`. -/
def LysTransaction.involves_wallet (t : LysTransaction) (wallet : String) : Bool :=
  t.source == wallet || t.destination == wallet || t.fee_payer == wallet ||
    t.accounts.any (· == wallet) ||
    (match t.token_in with | some ti => ti.owner == wallet | none => false) ||
    (match t.token_out with | some t₀ => t₀.owner == wallet | none => false)

/-! ## The normaliser (`src/indexer/parser.rs`) -/

/-- `ParsedTransaction` from `src/indexer/parser.rs` (`block_time` is the
millisecond timestamp the parser stores, spec name `block_time_ms`). -/
structure ParsedTransaction where
  signature : String
  wallet : String
  protocol : Protocol
  tx_type : TransactionType
  token_in : String
  token_out : String
  amount_in : ℚ
  amount_out : ℚ
  usd_value : ℚ
  block_time : ℤ
  slot : ℕ
  deriving DecidableEq, Repr

/-- Numeric value of a digit list. -/
def digitsVal (cs : List Char) : ℕ :=
  cs.foldl (fun n c => 10 * n + (c.toNat - 48)) 0

/-- Model of Rust `str::parse::<f64>` on plain decimal literals
(optional sign, digits, optional fractional part).  Exponent forms and
inf/nan are not modelled: no claim depends on the value this returns,
only on the surrounding control flow, and every concrete input below
stays inside this fragment. -/
def parseF64 (s : String) : Option ℚ :=
  let step : ℚ × List Char :=
    match s.toList with
    | '-' :: r => (-1, r)
    | '+' :: r => (1, r)
    | r => (1, r)
  let sgn := step.1
  let rest := step.2
  let intPart := rest.takeWhile Char.isDigit
  match rest.dropWhile Char.isDigit with
  | [] => if intPart.isEmpty then none else some (sgn * digitsVal intPart)
  | '.' :: frac =>
    if frac.all Char.isDigit ∧ ¬(intPart.isEmpty ∧ frac.isEmpty) then
      some (sgn * ((digitsVal intPart : ℚ) + (digitsVal frac : ℚ) / (10 ^ frac.length)))
    else none
  | _ => none

/-- `identify_protocol_by_program_id` from `src/indexer/parser.rs`. -/
def identify_protocol_by_program_id (program_id : String) : Option Protocol :=
  if program_id = "JUP6LkbZbjS1jKKwapdHNy74zcZ3tLUZoi5QNyVTaV4" then some .Jupiter
  else if program_id = "JUP4Fb2cqiRUcaTHdrPC8h2gNsA2ETXiPDD33WcGuJB" then some .Jupiter
  else if program_id = "675kPX9MHTjS2zt1qfr1NYHuzeLXfQM9H24wFSUt1Mp8" then some .Raydium
  else if program_id = "CAMMCzo5YL8w4VFF8KVHrK22GGUsp5VTaW7grrKgrWqK" then some .Raydium
  else if program_id = "KLend2g3cP87ber41L3rfCMYbkK3YqPjSSahS1E3HVK" then some .Kamino
  else if program_id = "6LtLpnUFNByNXLyCoK9wA2MykKAmQNZKBdY8s47dehDc" then some .Kamino
  else if program_id = "LBUZKhRxPF3XUpBCjp4YzTKgLccjZhTSDM9YuVaPwxo" then some .Meteora
  else if program_id = "whirLbMiicVdio4qvUfM5KAg6Ct8VwpYzGff3uctyCc" then some .Orca
  else if program_id = "6EF8rrecthR5Dkzon8Nwu78hRvfCKubJ14M5uBEwF6P" then some .PumpFun
  else none

/-- `identify_protocol` from `src/indexer/parser.rs`. -/
def identify_protocol (tx : LysTransaction) : Option Protocol :=
  let decoder_lower := strLower tx.decoder_type
  if strContains decoder_lower "jupiter" then some .Jupiter
  else if strContains decoder_lower "raydium" then some .Raydium
  else if strContains decoder_lower "kamino" then some .Kamino
  else if strContains decoder_lower "meteora" then some .Meteora
  else if strContains decoder_lower "orca" then some .Orca
  else if strContains decoder_lower "pump" then some .PumpFun
  else identify_protocol_by_program_id tx.program_id

/-- `is_swap_decoder` from `src/indexer/parser.rs`. -/
def is_swap_decoder (decoder_type : String) : Bool :=
  let decoder_lower := strLower decoder_type
  strContains decoder_lower "swap" || strContains decoder_lower "raydium" ||
    strContains decoder_lower "jupiter" || strContains decoder_lower "meteora" ||
    strContains decoder_lower "orca" || strContains decoder_lower "pump"

/-- The `ui_amount`-or-parsed-`amount` fallback shared by the swap and
lending parsers (`if tx.ui_amount != 0.0 .. else tx.amount.parse()`). -/
def fallbackAmount (tx : LysTransaction) : ℚ :=
  if tx.ui_amount ≠ 0 then tx.ui_amount else (parseF64 tx.amount).getD 0

/-- The `(token_in, amount_in)` extraction of `parse_swap`: prefer the
dedicated `token_in` sub-object, else fall back to `(mint, amount)` when
the wallet is the source. -/
def swapInSide (tx : LysTransaction) (wallet : String) : String × ℚ :=
  match tx.token_in with
  | some ti => (ti.mint, ti.ui_amount)
  | none =>
    if tx.mint ≠ "" ∧ tx.source = wallet then (tx.mint, fallbackAmount tx)
    else ("", 0)

/-- The `(token_out, amount_out)` extraction of `parse_swap`. -/
def swapOutSide (tx : LysTransaction) (wallet : String) : String × ℚ :=
  match tx.token_out with
  | some t => (t.mint, t.ui_amount)
  | none =>
    if tx.mint ≠ "" ∧ tx.destination = wallet then (tx.mint, fallbackAmount tx)
    else ("", 0)

/-- `parse_swap` from `src/indexer/parser.rs`.  `Decimal::try_from` on a
finite float always succeeds and is modelled as the identity on `ℚ`. -/
def parse_swap (tx : LysTransaction) (wallet : String) (protocol : Protocol) :
    Option ParsedTransaction :=
  if (swapInSide tx wallet).1 = "" ∧ (swapOutSide tx wallet).1 = "" then none
  else
    some { signature := tx.tx_signature, wallet, protocol,
           tx_type := .Swap,
           token_in := (swapInSide tx wallet).1, token_out := (swapOutSide tx wallet).1,
           amount_in := (swapInSide tx wallet).2, amount_out := (swapOutSide tx wallet).2,
           usd_value := 0, block_time := tx.block_time * 1000, slot := tx.slot }

/-- `parse_lending_operation` from `src/indexer/parser.rs`. -/
def parse_lending_operation (tx : LysTransaction) (wallet : String)
    (protocol : Protocol) (tx_type : TransactionType) : Option ParsedTransaction :=
  some { signature := tx.tx_signature, wallet, protocol, tx_type,
         token_in := tx.mint, token_out := "",
         amount_in := fallbackAmount tx, amount_out := 0,
         usd_value := 0, block_time := tx.block_time * 1000, slot := tx.slot }

/-- `parse_transaction` from `src/indexer/parser.rs`: protocol
identification, then dispatch on the upper-cased event type. -/
def parse_transaction (tx : LysTransaction) (wallet : String) : Option ParsedTransaction :=
  match identify_protocol tx with
  | none => none
  | some protocol =>
    let et := strUpper tx.event_type
    if et = "SWAP" then parse_swap tx wallet protocol
    else if et = "TRANSFER" then none
    else if et = "DEPOSIT" ∨ et = "SUPPLY" then
      parse_lending_operation tx wallet protocol .Deposit
    else if et = "WITHDRAW" ∨ et = "REDEEM" then
      parse_lending_operation tx wallet protocol .Withdraw
    else if et = "BORROW" then parse_lending_operation tx wallet protocol .Borrow
    else if et = "REPAY" then parse_lending_operation tx wallet protocol .Repay
    else if is_swap_decoder tx.decoder_type then parse_swap tx wallet protocol
    else none

/-! ## Risk metrics (`src/metrics/risk.rs`) -/

/-- `RiskMetrics` from `src/metrics/risk.rs` (`score` is a `u8`,
`position_count` a `u16`; both are within `ℕ` range on every path). -/
structure RiskMetrics where
  score : ℕ
  largest_position_pct : ℚ
  position_count : ℕ
  protocol_concentration : ℚ
  deriving DecidableEq, Repr

/-- `RiskMetrics::default()`. -/
def RiskMetrics.default : RiskMetrics :=
  { score := 0, largest_position_pct := 0, position_count := 0, protocol_concentration := 0 }

/-- `HashMap::entry(k).or_default()` followed by an update `f` of the
stored value, modelled on an association list. -/
def updAssoc {α : Type} [DecidableEq α] (m : List (α × ℚ)) (k : α) (f : ℚ → ℚ) :
    List (α × ℚ) :=
  match m with
  | [] => [(k, f 0)]
  | (k', v) :: rest => if k' = k then (k', f v) :: rest else (k', v) :: updAssoc rest k f

/-- `HashSet::insert`, modelled as duplicate-free list extension. -/
def insertNew {α : Type} [DecidableEq α] (xs : List α) (x : α) : List α :=
  if x ∈ xs then xs else xs ++ [x]

/-- The per-`(token, protocol)` position values accumulated by the
`for tx in transactions` loop of `compute_risk`. -/
def positionsOf (txs : List ParsedTransaction) : List ((String × Protocol) × ℚ) :=
  txs.foldl
    (fun m tx =>
      match tx.tx_type with
      | .Deposit | .AddLiquidity | .Borrow =>
        updAssoc m (tx.token_in, tx.protocol) (· + tx.usd_value)
      | .Withdraw | .RemoveLiquidity | .Repay =>
        updAssoc m (tx.token_out, tx.protocol) (fun pos => max (pos - tx.usd_value) 0)
      | .Swap => m)
    []

/-- The protocol set accumulated by `compute_risk`. -/
def protocolsOf (txs : List ParsedTransaction) : List Protocol :=
  txs.foldl (fun s tx => insertNew s tx.protocol) []

/-- `iterator.max().unwrap_or_default()` on `Decimal` values. -/
def listMaxD : List ℚ → ℚ
  | [] => 0
  | x :: xs => xs.foldl max x

/-- The `(largest_position_pct * 40).to_string().parse::<f64>() as u8`
chain of `calculate_risk_score`: the decimal-to-float round trip is
modelled as exact and the `as u8` cast as the saturating floor. -/
def castU8 (q : ℚ) : ℕ :=
  min (Int.toNat ⌊q⌋) 255

/-- `calculate_risk_score` from `src/metrics/risk.rs`, with the exact
`u8` sequence of additions (the sum is at most 100, so `ℕ` addition is
faithful). -/
def calculate_risk_score (largest_position_pct protocol_concentration : ℚ)
    (protocol_count position_count : ℕ) : ℕ :=
  let concentration_score := min (castU8 (largest_position_pct * 40)) 40
  let protocol_risk := min (castU8 (protocol_concentration * 30)) 30
  let diversification_bonus :=
    match protocol_count with
    | 0 | 1 => 20
    | 2 => 10
    | 3 => 5
    | _ => 0
  let position_factor :=
    if position_count = 0 then 10
    else if position_count ≤ 3 then 5
    else if position_count ≤ 10 then 0
    else 5
  min (concentration_score + protocol_risk + diversification_bonus + position_factor) 100

/-- `let total_value: Decimal = positions.values().copied().sum()`. -/
def totalValueOf (positions : List ((String × Protocol) × ℚ)) : ℚ :=
  (positions.map (·.2)).sum

/-- The per-protocol value aggregation of `compute_risk`. -/
def protoValuesOf (positions : List ((String × Protocol) × ℚ)) : List (Protocol × ℚ) :=
  positions.foldl (fun m kv => updAssoc m kv.1.2 (· + kv.2)) []

/-- `largest_position_pct` as computed by `compute_risk`. -/
def largestPctOf (positions : List ((String × Protocol) × ℚ)) : ℚ :=
  if totalValueOf positions > 0 then
    listMaxD (positions.map (·.2)) / totalValueOf positions
  else 0

/-- `protocol_concentration` as computed by `compute_risk`. -/
def protoConcOf (positions : List ((String × Protocol) × ℚ)) : ℚ :=
  if totalValueOf positions > 0 then
    listMaxD ((protoValuesOf positions).map (·.2)) / totalValueOf positions
  else 0

/-- `compute_risk` from `src/metrics/risk.rs`. -/
def compute_risk (transactions : List ParsedTransaction) : RiskMetrics :=
  if transactions = [] then RiskMetrics.default
  else
    { score := calculate_risk_score (largestPctOf (positionsOf transactions))
        (protoConcOf (positionsOf transactions))
        (protocolsOf transactions).length (positionsOf transactions).length,
      largest_position_pct := largestPctOf (positionsOf transactions),
      position_count := (positionsOf transactions).length,
      protocol_concentration := protoConcOf (positionsOf transactions) }

/-! ## Subscription manager (`src/indexer/mod.rs`)

`WalletSubscription.cancelled` is the state of the subscription's
`CancellationToken`; `started_at` (a wall-clock timestamp) is omitted. -/

structure WalletSubscription where
  wallet : String
  tx_count : ℕ
  cancelled : Bool
  deriving DecidableEq, Repr

/-- The manager state: the `subscriptions: RwLock<HashMap<..>>` map. -/
structure IndexerState where
  subscriptions : List (String × WalletSubscription)
  deriving DecidableEq, Repr

/-- `SubscriptionStatus` from `src/indexer/mod.rs` (minus `started_at`). -/
structure SubscriptionStatus where
  wallet : String
  transactions_processed : ℕ
  running : Bool
  deriving DecidableEq, Repr

/-- `HashMap::remove` on the association-list model. -/
def removeKey (m : List (String × WalletSubscription)) (w : String) :
    List (String × WalletSubscription) :=
  m.filter (fun kv => kv.1 ≠ w)

/-- `Indexer::stop_subscription`: look up, remove from the map, fire the
cancel token of the removed subscription.  The third component is the
list of cancel signals fired by the call (its only side effect besides
the map update). -/
def stop_subscription (w : String) (s : IndexerState) :
    Bool × IndexerState × List String :=
  match s.subscriptions.lookup w with
  | some _ => (true, ⟨removeKey s.subscriptions w⟩, [w])
  | none => (false, s, [])

/-- `Indexer::is_subscribed`. -/
def is_subscribed (w : String) (s : IndexerState) : Bool :=
  (s.subscriptions.lookup w).isSome

/-- `Indexer::list_subscriptions` (`running := !cancel_token.is_cancelled()`). -/
def list_subscriptions (s : IndexerState) : List SubscriptionStatus :=
  s.subscriptions.map fun kv =>
    { wallet := kv.1, transactions_processed := kv.2.tx_count, running := !kv.2.cancelled }

/-! ## The continuous-stream reconnect loop (`src/indexer/lyslabs.rs`,
`start_continuous_stream`)

Each iteration of the spawned loop is driven by the outcome of one
connection epoch; the externally visible actions (connection attempts
and backoff sleeps) are reified. -/

inductive StreamAction where
  | connectAttempt
  | sleepMs (ms : ℕ)
  deriving DecidableEq, Repr

/-- The possible outcomes of one connection epoch, as distinguished by
the loop body: `connect_async` fails; it succeeds but sending the
subscribe frame fails (the `continue` path); or the established message
stream later ends (server close frame, websocket error, or stream end —
all of which `break` to the same reconnect tail). -/
inductive ConnEpoch where
  | connFail
  | subscribeSendFail
  | streamDrop
  deriving DecidableEq, Repr

inductive LoopOutcome where
  | looping (attempts : ℕ)
  | terminated
  deriving DecidableEq, Repr

/-- The reconnect tail of the loop (lyslabs.rs:418-429):
`reconnect_attempts += 1`; stop at `MAX_RECONNECT_ATTEMPTS = 10`;
otherwise sleep `RECONNECT_DELAY_BASE_MS * 2^min(attempts, 6)`. -/
def reconnectTail (attempts : ℕ) : List StreamAction × LoopOutcome :=
  let a := attempts + 1
  if 10 ≤ a then ([], .terminated)
  else ([.sleepMs (1000 * 2 ^ min a 6)], .looping a)

/-- One iteration of the reconnect loop, from attempt counter
`attempts`.  On a successful `connect_async` the counter is reset to 0
(lyslabs.rs:306) before the epoch plays out; the subscribe-send failure
path does `continue`, skipping the reconnect tail entirely. -/
def streamLoopStep (attempts : ℕ) (e : ConnEpoch) : List StreamAction × LoopOutcome :=
  match e with
  | .connFail =>
    let t := reconnectTail attempts
    (.connectAttempt :: t.1, t.2)
  | .subscribeSendFail => ([.connectAttempt], .looping 0)
  | .streamDrop =>
    let t := reconnectTail 0
    (.connectAttempt :: t.1, t.2)

/-- Run the reconnect loop over a finite schedule of epoch outcomes. -/
def runStreamLoop : ℕ → List ConnEpoch → List StreamAction × LoopOutcome
  | a, [] => ([], .looping a)
  | a, e :: es =>
    match streamLoopStep a e with
    | (acts, .terminated) => (acts, .terminated)
    | (acts, .looping a') =>
      let rest := runStreamLoop a' es
      (acts ++ rest.1, rest.2)

/-! ## Manager and stream task combined (for the reconnect-budget claim)

The spawned stream task owns only its local attempt counter; its exit
paths (lyslabs.rs:419-423 and 432-434) execute no operation on the
manager's subscription map. -/

inductive StreamEndWhy where
  | exhausted
  | cancelled
  | channelClosed
  deriving DecidableEq, Repr

inductive StreamTask where
  | running (attempts : ℕ)
  | ended (why : StreamEndWhy)
  deriving DecidableEq, Repr

structure System where
  mgr : IndexerState
  streams : List (String × StreamTask)
  deriving DecidableEq, Repr

/-- `Indexer::start_subscription` (map registration and task spawn;
the history fetch and processor are not relevant to the stream-budget
claim). -/
def start_subscription (w : String) (s : System) : Bool × System :=
  if (s.mgr.subscriptions.lookup w).isSome then (false, s)
  else
    (true,
      { mgr := ⟨s.mgr.subscriptions ++ [(w, { wallet := w, tx_count := 0, cancelled := false })]⟩,
        streams := s.streams ++ [(w, .running 0)] })

/-- The effect of one failed connection epoch on a stream task:
`reconnect_attempts += 1`, and at `MAX_RECONNECT_ATTEMPTS = 10` the task
breaks out of its loop with the budget exhausted. -/
def streamFailTransition : StreamTask → StreamTask
  | .running a => if 10 ≤ a + 1 then .ended .exhausted else .running (a + 1)
  | t => t

/-- One failed connection epoch of the stream task for `w`.  The manager
state is untouched — the task code never references the subscription
map, and its exit paths execute no map operation. -/
def streamConnFail (w : String) (s : System) : System :=
  { s with
    streams := s.streams.map fun kv =>
      if kv.1 = w then (kv.1, streamFailTransition kv.2) else kv }

/-- The state of the stream task for `w`. -/
def streamTaskOf (w : String) (s : System) : Option StreamTask :=
  s.streams.lookup w

/-! ## The transaction processor (`src/indexer/mod.rs`,
`process_transaction_stream`)

Each received record is paired with the store's response to the insert
the processor would issue for it (`Bool`: ok / error); the store is an
external system. -/

/-- One iteration of the `while let Some(lys_tx) = rx.recv()` loop:
parse; on success insert; increment the counter only when the insert
succeeded. -/
def processStep (wallet : String) (count : ℕ) (rec : LysTransaction × Bool) : ℕ :=
  match parse_transaction rec.1 wallet with
  | some _ => if rec.2 then count + 1 else count
  | none => count

/-- `process_transaction_stream`: the final value of the per-wallet
`tx_count` after draining the given stream, starting from 0. -/
def process_transaction_stream (wallet : String)
    (events : List (LysTransaction × Bool)) : ℕ :=
  events.foldl (processStep wallet) 0

/-! ## Conviction engine models (`crates/cortex-core/src/models.rs`) -/

inductive PositionKind where
  | Spot | Swap | LiquidityPool | Lending | Borrowing | Staking
  | Farming | Perpetual | Options | Other
  deriving DecidableEq, Repr

inductive WalletClassification where
  | Whale | Trader | Bot | Fund | Exchange | Retail | New | Unknown
  deriving DecidableEq, Repr

inductive MarketStatus where
  | Open | Closed | Resolved | Disputed
  deriving DecidableEq, Repr

/-- `DeFiPosition` (timestamps and the free-form `metadata` omitted). -/
structure DeFiPosition where
  protocol : String
  position_type : PositionKind
  token : String
  token_symbol : String
  amount : ℚ
  usd_value : ℚ
  entry_price : Option ℚ
  current_price : ℚ
  unrealized_pnl : ℚ
  deriving DecidableEq, Repr

/-- `PredictionMarketBet` (timestamps omitted). -/
structure PredictionMarketBet where
  platform : String
  market_slug : String
  market_title : String
  outcome : String
  amount_usd : ℚ
  entry_price : ℚ
  current_price : ℚ
  shares : ℚ
  unrealized_pnl : ℚ
  category : String
  market_status : MarketStatus
  deriving DecidableEq, Repr

/-- The unified `Wallet` entity (`last_activity` omitted). -/
structure Wallet where
  address : String
  total_value_usd : ℚ
  defi_positions : List DeFiPosition
  prediction_bets : List PredictionMarketBet
  classification : Option WalletClassification
  risk_score : ℕ
  protocols : List String
  deriving DecidableEq, Repr

inductive SignalType where
  | BullishAlignment | BearishAlignment | Contradiction
  | FrontRunning | HighConviction | TrackRecord
  deriving DecidableEq, Repr

inductive ConvictionConfidence where
  | High | Medium | Low
  deriving DecidableEq, Repr

structure ConvictionSignal where
  signal_type : SignalType
  strength : ℚ
  defi_context : String
  prediction_context : String
  description : String
  deriving DecidableEq, Repr

/-- `WalletConviction` (`analyzed_at` omitted). -/
structure WalletConviction where
  wallet : String
  conviction_score : ℚ
  confidence : ConvictionConfidence
  signals : List ConvictionSignal
  interpretation : String
  deriving DecidableEq, Repr

/-- `CortexError` from `crates/cortex-core/src/error.rs`. -/
inductive CortexError where
  | WalletNotFound (s : String)
  | MarketNotFound (s : String)
  | InsufficientData (s : String)
  | Database (s : String)
  | Parse (s : String)
  | Internal (s : String)
  deriving DecidableEq, Repr

/-- The `thiserror` `Display` implementation of `CortexError`. -/
def CortexError.display : CortexError → String
  | .WalletNotFound s => "Wallet not found: " ++ s
  | .MarketNotFound s => "Market not found: " ++ s
  | .InsufficientData s => "Insufficient data for conviction calculation: " ++ s
  | .Database s => "Database error: " ++ s
  | .Parse s => "Parse error: " ++ s
  | .Internal s => "Internal error: " ++ s

/-! Numeric formatting helpers used only to fill the human-readable
strings the conviction code produces with `format!`.  Rust rounds
half-to-even when formatting; these helpers round half-up.  No claim
(and no theorem below) depends on a formatted value at a tie, so the
difference is immaterial. -/

/-- `format!("{:.0}", q)`. -/
def fmtQ0 (q : ℚ) : String :=
  (if q < 0 then "-" else "") ++ toString (round |q| : ℤ).toNat

/-- `format!("{:.2}", q)`. -/
def fmtQ2 (q : ℚ) : String :=
  let c := (round (|q| * 100) : ℤ).toNat
  let fp := c % 100
  (if q < 0 then "-" else "") ++ toString (c / 100) ++ "." ++
    (if fp < 10 then "0" else "") ++ toString fp

/-- `format!("{:+.2}", q)`. -/
def fmtQ2plus (q : ℚ) : String :=
  (if q < 0 then "" else "+") ++ fmtQ2 q

/-! ## Conviction engine (`crates/cortex-core/src/conviction.rs`) -/

/-- The ordered keyword table of `extract_market_asset`. -/
def crypto_assets : List (String × String) :=
  [("bitcoin", "BTC"), ("btc", "BTC"), ("ethereum", "ETH"), ("eth", "ETH"),
   ("solana", "SOL"), ("sol ", "SOL"), ("$sol", "SOL")]

/-- `extract_market_asset` from `conviction.rs`: first keyword match on
the lower-cased title wins; otherwise the crypto-category fallback. -/
def extract_market_asset (title category : String) : Option String :=
  let title_lower := strLower title
  match crypto_assets.find? (fun p => strContains title_lower p.1) with
  | some p => some p.2
  | none =>
    if strLower category = "crypto" then
      if strContains title_lower "price" || strContains title_lower "reach" then
        some "CRYPTO"
      else none
    else none

/-- `is_position_relevant` from `conviction.rs`. -/
def is_position_relevant (position : DeFiPosition) (asset : String) : Bool :=
  let token_upper := strUpper position.token_symbol
  let asset_upper := strUpper asset
  if token_upper = asset_upper then true
  else
    match token_upper.toList with
    | 'W' :: rest =>
      if String.mk rest = asset_upper then true
      else strContains token_upper asset_upper && position.position_type == .LiquidityPool
    | _ => strContains token_upper asset_upper && position.position_type == .LiquidityPool

/-- `analyze_bet_conviction` from `conviction.rs`. -/
def analyze_bet_conviction (bet : PredictionMarketBet)
    (positions : List DeFiPosition) : Option ConvictionSignal :=
  match extract_market_asset bet.market_title bet.category with
  | none => none
  | some asset =>
    let relevant_positions := positions.filter (fun p => is_position_relevant p asset)
    if relevant_positions = [] then none
    else
      let total_exposure := (relevant_positions.map (·.usd_value)).sum
      let total_pnl := (relevant_positions.map (·.unrealized_pnl)).sum
      let outcome_upper := strUpper bet.outcome
      let is_bullish_bet := outcome_upper = "YES" ∨ strContains outcome_upper "ABOVE" ∨
        strContains outcome_upper "OVER" ∨ strContains outcome_upper "UP"
      let is_bullish_position := total_exposure > 0 ∧ total_pnl ≥ 0
      let bet_weight := min (bet.amount_usd / 1000) 1
      let position_weight := min (total_exposure / 10000) 1
      let aligned : Bool := decide is_bullish_bet = decide is_bullish_position
      let alignment_score : ℚ :=
        if aligned then 0.7 + bet_weight * 0.15 + position_weight * 0.15 else 0.3
      let sigPair : SignalType × String :=
        if aligned then
          if decide is_bullish_bet then
            (.BullishAlignment,
              "Wallet is long $" ++ fmtQ0 total_exposure ++ " in " ++ asset ++
                " AND betting YES on \"" ++ bet.market_title ++ "\"")
          else
            (.BearishAlignment,
              "Wallet has bearish " ++ asset ++ " exposure AND betting NO on \"" ++
                bet.market_title ++ "\"")
        else
          (.Contradiction,
            "Wallet\x27s " ++ asset ++ " position contradicts their bet on \"" ++
              bet.market_title ++ "\" - possible hedge")
      some { signal_type := sigPair.1, strength := alignment_score,
             defi_context := toString relevant_positions.length ++
               " positions totaling $" ++ fmtQ2 total_exposure ++ " (" ++
               fmtQ2plus total_pnl ++ " PnL)",
             prediction_context := bet.outcome ++ " $" ++ fmtQ2 bet.amount_usd ++
               " on \"" ++ bet.market_title ++ "\" @ " ++ fmtQ2 bet.entry_price,
             description := sigPair.2 }

/-- `calculate_confidence` from `conviction.rs`. -/
def calculate_confidence (wallet : Wallet) (signals : List ConvictionSignal) :
    ConvictionConfidence :=
  let position_count := wallet.defi_positions.length
  let bet_count := wallet.prediction_bets.length
  let signal_count := signals.length
  if 3 ≤ position_count ∧ 2 ≤ bet_count ∧ 2 ≤ signal_count then .High
  else if (1 ≤ position_count ∨ 1 ≤ bet_count) ∧ 1 ≤ signal_count then .Medium
  else .Low

/-- `generate_interpretation` from `conviction.rs`. -/
def generate_interpretation (signals : List ConvictionSignal) (score : ℚ)
    (confidence : ConvictionConfidence) : String :=
  if signals = [] then
    "No cross-domain signals detected. Wallet has no correlatable activity between DeFi and prediction markets."
  else
    let bullish_count := (signals.filter (fun s => s.signal_type == .BullishAlignment)).length
    let bearish_count := (signals.filter (fun s => s.signal_type == .BearishAlignment)).length
    let contradiction_count := (signals.filter (fun s => s.signal_type == .Contradiction)).length
    let direction :=
      if bearish_count < bullish_count then "bullish"
      else if bullish_count < bearish_count then "bearish"
      else "mixed"
    let confidence_str :=
      match confidence with
      | .High => "High confidence"
      | .Medium => "Medium confidence"
      | .Low => "Low confidence"
    let conviction_str :=
      if (0.7 : ℚ) < score then "strong"
      else if (0.4 : ℚ) < score then "moderate"
      else "weak"
    confidence_str ++ ": Wallet shows " ++ conviction_str ++ " " ++ direction ++
      " conviction (score: " ++ fmtQ2 score ++ "). " ++
      (if 0 < contradiction_count then
        "Note: " ++ toString contradiction_count ++
          " contradictory signal(s) detected - may indicate hedging strategy. "
      else "") ++
      "Analysis based on " ++ toString signals.length ++ " cross-domain signal(s)."

/-- `calculate_conviction` from `conviction.rs`. -/
def calculate_conviction (wallet : Wallet) : Except CortexError WalletConviction :=
  if wallet.defi_positions = [] ∧ wallet.prediction_bets = [] then
    .error (.InsufficientData "Wallet has no DeFi positions or prediction bets")
  else
    let signals := wallet.prediction_bets.filterMap
      (fun bet => analyze_bet_conviction bet wallet.defi_positions)
    let total_signal_strength := (signals.map (·.strength)).sum
    let conviction_score : ℚ :=
      if signals = [] then 0 else min (total_signal_strength / signals.length) 1
    let confidence := calculate_confidence wallet signals
    let interpretation := generate_interpretation signals conviction_score confidence
    .ok { wallet := wallet.address, conviction_score, confidence, signals, interpretation }

/-! ## API response assembly (`conviction.rs::conviction_to_response` and
`crates/cortex-unified-mcp/src/defi.rs::get_wallet_conviction`) -/

structure DeFiSummary where
  total_value_usd : ℚ
  position_count : ℕ
  protocols : List String
  dominant_exposure : String
  deriving DecidableEq, Repr

structure PredictionSummary where
  total_bet_usd : ℚ
  bet_count : ℕ
  platforms : List String
  categories : List String
  deriving DecidableEq, Repr

structure ConvictionSignalResponse where
  signal_type : String
  strength : ℚ
  description : String
  deriving DecidableEq, Repr

structure WalletConvictionResponse where
  wallet : String
  conviction_score : ℚ
  confidence : String
  signals_count : ℕ
  signals : List ConvictionSignalResponse
  interpretation : String
  defi_summary : DeFiSummary
  prediction_summary : PredictionSummary
  deriving DecidableEq, Repr

/-- `format!("{:?}", signal_type).to_lowercase()`. -/
def SignalType.debugLower : SignalType → String
  | .BullishAlignment => "bullishalignment"
  | .BearishAlignment => "bearishalignment"
  | .Contradiction => "contradiction"
  | .FrontRunning => "frontrunning"
  | .HighConviction => "highconviction"
  | .TrackRecord => "trackrecord"

/-- `format!("{:?}", confidence).to_lowercase()`. -/
def ConvictionConfidence.debugLower : ConvictionConfidence → String
  | .High => "high"
  | .Medium => "medium"
  | .Low => "low"

/-- `iter().max_by(|a, b| a.usd_value.partial_cmp(&b.usd_value).unwrap())`:
among equal maxima the later element wins. -/
def maxByUsd (ps : List DeFiPosition) : Option DeFiPosition :=
  ps.foldl
    (fun acc p =>
      match acc with
      | none => some p
      | some q => if p.usd_value < q.usd_value then some q else some p)
    none

/-- `conviction_to_response` from `conviction.rs`. -/
def conviction_to_response (conviction : WalletConviction) (wallet : Wallet) :
    WalletConvictionResponse :=
  { wallet := conviction.wallet,
    conviction_score := conviction.conviction_score,
    confidence := conviction.confidence.debugLower,
    signals_count := conviction.signals.length,
    signals := conviction.signals.map fun s =>
      { signal_type := s.signal_type.debugLower, strength := s.strength,
        description := s.description },
    interpretation := conviction.interpretation,
    defi_summary :=
      { total_value_usd := (wallet.defi_positions.map (·.usd_value)).sum,
        position_count := wallet.defi_positions.length,
        protocols := wallet.protocols,
        dominant_exposure := ((maxByUsd wallet.defi_positions).map (·.token_symbol)).getD "N/A" },
    prediction_summary :=
      { total_bet_usd := (wallet.prediction_bets.map (·.amount_usd)).sum,
        bet_count := wallet.prediction_bets.length,
        platforms := wallet.prediction_bets.foldl (fun s b => insertNew s b.platform) [],
        categories := wallet.prediction_bets.foldl (fun s b => insertNew s b.category) [] } }

/-- The decision core of `DefiClient::get_wallet_conviction_with_evm`
(defi.rs:98-163).  The HTTP fetch stage is abstracted by passing the
fetched data as arguments; fetch failures cannot escape it (every fetch
result goes through `unwrap_or`), so the remaining code is pure.  The
`Err` branch of `calculate_conviction` is converted into the zero-score
envelope; consequently every path returns `Ok`. -/
def get_wallet_conviction_core (wallet_addr : String)
    (defi_positions : List DeFiPosition) (prediction_bets : List PredictionMarketBet)
    (total_value_usd : ℚ) (risk_score : ℕ) (protocols : List String) :
    Except String WalletConvictionResponse :=
  let wallet : Wallet :=
    { address := wallet_addr, total_value_usd, defi_positions, prediction_bets,
      classification := some .Unknown, risk_score, protocols }
  match calculate_conviction wallet with
  | .ok conviction => .ok (conviction_to_response conviction wallet)
  | .error e =>
    .ok { wallet := wallet_addr,
          conviction_score := 0,
          confidence := "low",
          signals_count := 0,
          signals := [],
          interpretation := "Unable to calculate conviction: " ++ e.display ++
            ". This wallet may not have correlated DeFi and prediction market activity.",
          defi_summary :=
            { total_value_usd := wallet.total_value_usd,
              position_count := wallet.defi_positions.length,
              protocols := wallet.protocols,
              dominant_exposure := "N/A" },
          prediction_summary :=
            { total_bet_usd := 0, bet_count := 0, platforms := [], categories := [] } }

/-! ## Specification-side risk formula (from the claim wording, for the
refinement comparison against `calculate_risk_score`) -/

/-- The diversification penalty table as the specification states it:
1 protocol: 20, 2: 10, 3: 5, at least 4: 0. -/
def divPenaltySpec (protocol_count : ℕ) : ℤ :=
  match protocol_count with
  | 1 => 20
  | 2 => 10
  | 3 => 5
  | _ => 0

/-- The position-count factor table as the specification states it:
0 positions: 10, 1-3: 5, 4-10: 0, more than 10: 5. -/
def posFactorSpec (position_count : ℕ) : ℤ :=
  if position_count = 0 then 10
  else if position_count ≤ 3 then 5
  else if position_count ≤ 10 then 0
  else 5

/-! ## Concrete fixtures used by the theorems below

Rational values in fixtures are kept integral so that kernel evaluation
(`decide`) works without reducing `Rat` normalisation. -/

/-- A live swap record whose `token_in` sub-object carries a zero
`ui_amount` and which has no `token_out` side at all. -/
def c1Tx : LysTransaction :=
  { tx_signature := "sigC1", slot := 1, block_time := 1700000000,
    decoder_type := "Raydium AMM", event_type := "SWAP", mint := "",
    source := "", destination := "", fee_payer := "", program_id := "", pool := "",
    token_in := some { mint := "MintA", amount := "", ui_amount := 0, decimals := 9, owner := "W1" },
    token_out := none, accounts := [], ui_amount := 0, amount := "" }

/-- What the normaliser produces for `c1Tx`. -/
def c1Parsed : ParsedTransaction :=
  { signature := "sigC1", wallet := "W1", protocol := .Raydium, tx_type := .Swap,
    token_in := "MintA", token_out := "", amount_in := 0, amount_out := 0,
    usd_value := 0, block_time := 1700000000000, slot := 1 }

/-- A fully two-sided swap record (the specification's scenario 3, with
integral amounts). -/
def spec3Tx : LysTransaction :=
  { tx_signature := "sig3", slot := 5, block_time := 1700000000,
    decoder_type := "Raydium AMM", event_type := "SWAP", mint := "",
    source := "", destination := "", fee_payer := "", program_id := "", pool := "",
    token_in := some { mint := "Ma", amount := "", ui_amount := 2, decimals := 9, owner := "W" },
    token_out := some { mint := "Mb", amount := "", ui_amount := 42, decimals := 9, owner := "W" },
    accounts := [], ui_amount := 0, amount := "" }

/-- What the normaliser produces for `spec3Tx`. -/
def spec3Parsed : ParsedTransaction :=
  { signature := "sig3", wallet := "W", protocol := .Raydium, tx_type := .Swap,
    token_in := "Ma", token_out := "Mb", amount_in := 2, amount_out := 42,
    usd_value := 0, block_time := 1700000000000, slot := 5 }

/-- A stream frame with a signature but no `blockTime` field. -/
def c4Json : JsonVal :=
  .obj [("signature", .str "sigC4"), ("decoderType", .str "raydium"),
        ("eventType", .str "SWAP"),
        ("tokenIn", .obj [("mint", .str "MintA"), ("uiAmount", .num 2)])]

/-- The record the lenient decoder produces for `c4Json`
(`block_time` defaults to 0). -/
def c4Tx : LysTransaction :=
  { tx_signature := "sigC4", slot := 0, block_time := 0, decoder_type := "raydium",
    event_type := "SWAP", mint := "", source := "", destination := "", fee_payer := "",
    program_id := "", pool := "",
    token_in := some { mint := "MintA", amount := "", ui_amount := 2, decimals := 0, owner := "" },
    token_out := none, accounts := [], ui_amount := 0, amount := "" }

/-- What the normaliser produces for `c4Tx`. -/
def c4Parsed : ParsedTransaction :=
  { signature := "sigC4", wallet := "W4", protocol := .Raydium, tx_type := .Swap,
    token_in := "MintA", token_out := "", amount_in := 2, amount_out := 0,
    usd_value := 0, block_time := 0, slot := 0 }

/-- A lending (WITHDRAW) record. -/
def c9Tx : LysTransaction :=
  { tx_signature := "sigC9", slot := 2, block_time := 1700000001,
    decoder_type := "Kamino Lending", event_type := "WITHDRAW", mint := "SOLMint",
    source := "", destination := "", fee_payer := "", program_id := "", pool := "",
    token_in := none, token_out := none, accounts := [], ui_amount := 2, amount := "" }

/-- What the normaliser produces for `c9Tx`. -/
def c9Parsed : ParsedTransaction :=
  { signature := "sigC9", wallet := "W9", protocol := .Kamino, tx_type := .Withdraw,
    token_in := "SOLMint", token_out := "", amount_in := 2, amount_out := 0,
    usd_value := 0, block_time := 1700000001000, slot := 2 }

/-- A single deposit worth 10000 USD on Jupiter: the concentrated
portfolio of the specification's risk scenario. -/
def c5Tx : ParsedTransaction :=
  { signature := "sigC5", wallet := "W5", protocol := .Jupiter, tx_type := .Deposit,
    token_in := "SOL", token_out := "", amount_in := 50, amount_out := 0,
    usd_value := 10000, block_time := 1700000000000, slot := 9 }

/-- The SOL spot position of the specification's conviction scenario. -/
def c2Position : DeFiPosition :=
  { protocol := "jupiter", position_type := .Spot,
    token := "So11111111111111111111111111111111111111112", token_symbol := "SOL",
    amount := 100, usd_value := 15000, entry_price := some 100,
    current_price := 150, unrealized_pnl := 5000 }

/-- The YES bet of the specification's conviction scenario. -/
def c2Bet : PredictionMarketBet :=
  { platform := "polymarket", market_slug := "sol-flip-eth",
    market_title := "Will SOL flip ETH?", outcome := "YES", amount_usd := 500,
    entry_price := 1, current_price := 1, shares := 500, unrealized_pnl := 0,
    category := "crypto", market_status := .Open }

/-- The wallet of the specification's conviction scenario. -/
def c2Wallet : Wallet :=
  { address := "W2", total_value_usd := 15000, defi_positions := [c2Position],
    prediction_bets := [c2Bet], classification := some .Unknown, risk_score := 50,
    protocols := ["jupiter"] }

/-- The empty manager/stream system. -/
def sysEmpty : System := { mgr := ⟨[]⟩, streams := [] }

/-- A fresh subscription for wallet `W3`. -/
def c3Sys0 : System := (start_subscription "W3" sysEmpty).2

/-- The system after nine consecutive failed connection epochs. -/
def c3Sys9 : System := (streamConnFail "W3")^[9] c3Sys0

/-- The system after the tenth consecutive failed connection epoch. -/
def c3SysEx : System := streamConnFail "W3" c3Sys9

/-- The zero-score envelope `get_wallet_conviction` returns when
`calculate_conviction` reports insufficient data. -/
def c8Envelope (addr : String) (total : ℚ) (protos : List String) :
    WalletConvictionResponse :=
  { wallet := addr
    conviction_score := 0
    confidence := "low"
    signals_count := 0
    signals := []
    interpretation := "Unable to calculate conviction: Insufficient data for conviction calculation: Wallet has no DeFi positions or prediction bets. This wallet may not have correlated DeFi and prediction market activity."
    defi_summary :=
      { total_value_usd := total
        position_count := 0
        protocols := protos
        dominant_exposure := "N/A" }
    prediction_summary :=
      { total_bet_usd := 0
        bet_count := 0
        platforms := []
        categories := [] } }

/-! ## Helper lemmas -/

lemma parse_swap_some_side (tx : LysTransaction) (w : String) (p : Protocol)
    (q : ParsedTransaction) (h : parse_swap tx w p = some q) :
    q.token_in ≠ "" ∨ q.token_out ≠ "" := by
  unfold parse_swap at h
  split at h
  · exact absurd h (by simp)
  · rename_i hcond
    rw [not_and_or] at hcond
    injection h with h
    subst h
    exact hcond

lemma parse_swap_fields (tx : LysTransaction) (w : String) (p : Protocol)
    (q : ParsedTransaction) (h : parse_swap tx w p = some q) :
    q.signature = tx.tx_signature ∧ q.block_time = tx.block_time * 1000 ∧
      q.tx_type = .Swap := by
  unfold parse_swap at h
  split at h
  · exact absurd h (by simp)
  · injection h with h
    subst h
    exact ⟨rfl, rfl, rfl⟩

lemma parse_lending_fields (tx : LysTransaction) (w : String) (p : Protocol)
    (tt : TransactionType) (q : ParsedTransaction)
    (h : parse_lending_operation tx w p tt = some q) :
    q.signature = tx.tx_signature ∧ q.block_time = tx.block_time * 1000 ∧
      q.tx_type = tt ∧ q.token_out = "" ∧ q.amount_out = 0 := by
  unfold parse_lending_operation at h
  injection h with h
  subst h
  exact ⟨rfl, rfl, rfl, rfl, rfl⟩

lemma parse_transaction_cases (tx : LysTransaction) (w : String) (q : ParsedTransaction)
    (h : parse_transaction tx w = some q) :
    (∃ p, parse_swap tx w p = some q) ∨
      (∃ p tt, (tt = TransactionType.Deposit ∨ tt = .Withdraw ∨ tt = .Borrow ∨ tt = .Repay) ∧
        parse_lending_operation tx w p tt = some q) := by
  unfold parse_transaction at h
  rcases hp : identify_protocol tx with _ | proto
  · rw [hp] at h
    exact absurd h (by simp)
  · rw [hp] at h
    simp only at h
    split_ifs at h
    · exact Or.inl ⟨proto, h⟩
    · exact Or.inr ⟨proto, .Deposit, Or.inl rfl, h⟩
    · exact Or.inr ⟨proto, .Withdraw, Or.inr (Or.inl rfl), h⟩
    · exact Or.inr ⟨proto, .Borrow, Or.inr (Or.inr (Or.inl rfl)), h⟩
    · exact Or.inr ⟨proto, .Repay, Or.inr (Or.inr (Or.inr rfl)), h⟩
    · exact Or.inl ⟨proto, h⟩

lemma from_value_signature (v : JsonVal) (t : LysTransaction)
    (h : LysTransaction.from_value v = some t) : t.tx_signature ≠ "" := by
  unfold LysTransaction.from_value at h
  rcases v with _ | _ | _ | _ | _ | _ | fields <;>
    simp only [JsonVal.as_object, Option.bind_eq_bind, Option.none_bind,
      Option.some_bind] at h
  · exact absurd h (by simp)
  · exact absurd h (by simp)
  · exact absurd h (by simp)
  · exact absurd h (by simp)
  · exact absurd h (by simp)
  · exact absurd h (by simp)
  · split at h
    · exact absurd h (by simp)
    · rename_i hsig
      injection h with h
      subst h
      exact hsig

/-! ## Claim C1 -/

/-- C1 counterexample: the record `c1Tx` parses to a Swap whose
`amount_in`, `amount_out` are zero and whose `token_out` is empty, so
not every parsed Swap satisfies `amount_in > 0 ∧ amount_out > 0 ∧
token_in ≠ "" ∧ token_out ≠ ""`. -/
theorem C1_swap_invariant_cex :
    parse_transaction c1Tx "W1" = some c1Parsed ∧ c1Parsed.tx_type = .Swap ∧
      c1Parsed.amount_in = 0 ∧ c1Parsed.amount_out = 0 ∧ c1Parsed.token_out = "" := by
  decide

/-- C1 (amended): every ParsedTransaction with `tx_type = Swap` produced
by the normaliser has at least one non-empty token side (`token_in ≠ ""`
or `token_out ≠ ""`); the amounts and the other side may be zero/empty. -/
theorem C1_swap_populated_side (tx : LysTransaction) (w : String) (q : ParsedTransaction)
    (h : parse_transaction tx w = some q) (hswap : q.tx_type = .Swap) :
    q.token_in ≠ "" ∨ q.token_out ≠ "" := by
  rcases parse_transaction_cases tx w q h with ⟨p, hs⟩ | ⟨p, tt, htt, hl⟩
  · exact parse_swap_some_side tx w p q hs
  · obtain ⟨-, -, hty, -, -⟩ := parse_lending_fields tx w p tt q hl
    rw [hty] at hswap
    rcases htt with rfl | rfl | rfl | rfl <;> exact absurd hswap (by decide)

/-- C1 witness: the amended theorem applied to the two-sided swap
`spec3Tx`. -/
theorem C1_swap_populated_side_witness :
    spec3Parsed.token_in ≠ "" ∨ spec3Parsed.token_out ≠ "" :=
  C1_swap_populated_side spec3Tx "W" spec3Parsed (by decide) (by decide)

/-! ## Claim C4 -/

/-- C4 counterexample: the frame `c4Json` is admitted by the lenient
decoder (it has a signature) but carries no `blockTime`, so the decoder
defaults `block_time` to 0 and the normaliser emits a ParsedTransaction
with `block_time_ms = 0`, violating `block_time_ms > 0`. -/
theorem C4_block_time_cex :
    LysTransaction.from_value c4Json = some c4Tx ∧
      parse_transaction c4Tx "W4" = some c4Parsed ∧
      c4Parsed.signature ≠ "" ∧ ¬(0 < c4Parsed.block_time) := by
  decide

/-- C4 (amended): every record admitted by the lenient decoder has a
non-empty signature, and every ParsedTransaction carries the record's
signature unchanged and `block_time_ms = 1000 · block_time` — so
`signature ≠ ""` always holds for decoded records, while
`block_time_ms > 0` holds exactly when the record's `block_time` was
positive (a record without a `blockTime` field parses with 0). -/
theorem C4_identity_amended :
    (∀ v t, LysTransaction.from_value v = some t → t.tx_signature ≠ "") ∧
    (∀ tx w q, parse_transaction tx w = some q →
        q.signature = tx.tx_signature ∧ q.block_time = tx.block_time * 1000) := by
  refine ⟨from_value_signature, fun tx w q h => ?_⟩
  rcases parse_transaction_cases tx w q h with ⟨p, hs⟩ | ⟨p, tt, -, hl⟩
  · obtain ⟨h1, h2, -⟩ := parse_swap_fields tx w p q hs
    exact ⟨h1, h2⟩
  · obtain ⟨h1, h2, -, -, -⟩ := parse_lending_fields tx w p tt q hl
    exact ⟨h1, h2⟩

/-- C4 witness: both halves of the amended theorem applied to the
concrete decoded record `c4Tx`. -/
theorem C4_identity_amended_witness :
    c4Tx.tx_signature ≠ "" ∧
      (c4Parsed.signature = c4Tx.tx_signature ∧
        c4Parsed.block_time = c4Tx.block_time * 1000) :=
  ⟨C4_identity_amended.1 c4Json c4Tx (by decide),
   C4_identity_amended.2 c4Tx "W4" c4Parsed (by decide)⟩

/-! ## Claim C9 -/

/-- C9: every record whose (upper-cased) event type is a lending event
(DEPOSIT/SUPPLY/WITHDRAW/REDEEM/BORROW/REPAY) and that the normaliser
accepts is placed entirely on the input side: the resulting
ParsedTransaction has `token_out = ""` and `amount_out = 0` — including
Withdraw and Repay, whose position deltas `compute_risk` keys on
`token_out`. -/
theorem C9_lending_one_sided (tx : LysTransaction) (w : String) (q : ParsedTransaction)
    (h : parse_transaction tx w = some q)
    (hev : strUpper tx.event_type = "DEPOSIT" ∨ strUpper tx.event_type = "SUPPLY" ∨
      strUpper tx.event_type = "WITHDRAW" ∨ strUpper tx.event_type = "REDEEM" ∨
      strUpper tx.event_type = "BORROW" ∨ strUpper tx.event_type = "REPAY") :
    q.token_out = "" ∧ q.amount_out = 0 := by
  unfold parse_transaction at h
  rcases hp : identify_protocol tx with _ | proto
  · rw [hp] at h
    exact absurd h (by simp)
  · rw [hp] at h
    simp only at h
    rcases hev with he | he | he | he | he | he <;> rw [he] at h
    · rw [if_neg (by decide), if_neg (by decide), if_pos (by decide)] at h
      obtain ⟨-, -, -, h4, h5⟩ := parse_lending_fields tx w proto .Deposit q h
      exact ⟨h4, h5⟩
    · rw [if_neg (by decide), if_neg (by decide), if_pos (by decide)] at h
      obtain ⟨-, -, -, h4, h5⟩ := parse_lending_fields tx w proto .Deposit q h
      exact ⟨h4, h5⟩
    · rw [if_neg (by decide), if_neg (by decide), if_neg (by decide),
        if_pos (by decide)] at h
      obtain ⟨-, -, -, h4, h5⟩ := parse_lending_fields tx w proto .Withdraw q h
      exact ⟨h4, h5⟩
    · rw [if_neg (by decide), if_neg (by decide), if_neg (by decide),
        if_pos (by decide)] at h
      obtain ⟨-, -, -, h4, h5⟩ := parse_lending_fields tx w proto .Withdraw q h
      exact ⟨h4, h5⟩
    · rw [if_neg (by decide), if_neg (by decide), if_neg (by decide), if_neg (by decide),
        if_pos (by decide)] at h
      obtain ⟨-, -, -, h4, h5⟩ := parse_lending_fields tx w proto .Borrow q h
      exact ⟨h4, h5⟩
    · rw [if_neg (by decide), if_neg (by decide), if_neg (by decide), if_neg (by decide),
        if_neg (by decide), if_pos (by decide)] at h
      obtain ⟨-, -, -, h4, h5⟩ := parse_lending_fields tx w proto .Repay q h
      exact ⟨h4, h5⟩

/-- C9 witness: the theorem applied to the concrete WITHDRAW record
`c9Tx`. -/
theorem C9_lending_one_sided_witness :
    c9Parsed.token_out = "" ∧ c9Parsed.amount_out = 0 :=
  C9_lending_one_sided c9Tx "W9" c9Parsed (by decide)
    (Or.inr (Or.inr (Or.inl (by decide))))

/-! ## Risk lemmas -/

lemma foldl_max_init (t : List ℚ) : ∀ a : ℚ, a ≤ t.foldl max a := by
  induction t with
  | nil => intro a; exact le_refl a
  | cons b t ih =>
    intro a
    exact le_trans (le_max_left a b) (ih (max a b))

lemma foldl_max_mem (t : List ℚ) : ∀ (a x : ℚ), x ∈ t → x ≤ t.foldl max a := by
  induction t with
  | nil => intro a x hx; exact absurd hx (List.not_mem_nil x)
  | cons b t ih =>
    intro a x hx
    rcases List.mem_cons.mp hx with rfl | hx
    · exact le_trans (le_max_right a x) (foldl_max_init t (max a x))
    · exact ih (max a b) x hx

lemma le_listMaxD {l : List ℚ} {x : ℚ} (hx : x ∈ l) : x ≤ listMaxD l := by
  cases l with
  | nil => exact absurd hx (List.not_mem_nil x)
  | cons a t =>
    rcases List.mem_cons.mp hx with rfl | hx
    · exact foldl_max_init t x
    · exact foldl_max_mem t a x hx

lemma sum_pos_has_pos {l : List ℚ} (h : 0 < l.sum) : ∃ x ∈ l, 0 < x := by
  induction l with
  | nil => simp at h
  | cons a t ih =>
    rcases lt_or_le 0 a with ha | ha
    · exact ⟨a, List.mem_cons_self a t, ha⟩
    · have ht : 0 < t.sum := by
        rw [List.sum_cons] at h
        linarith
      obtain ⟨x, hx, hpos⟩ := ih ht
      exact ⟨x, List.mem_cons_of_mem a hx, hpos⟩

lemma listMaxD_pos {l : List ℚ} (h : 0 < l.sum) : 0 < listMaxD l := by
  obtain ⟨x, hx, hpos⟩ := sum_pos_has_pos h
  exact lt_of_lt_of_le hpos (le_listMaxD hx)

lemma updAssoc_add_sum {α : Type} [DecidableEq α] (m : List (α × ℚ)) (k : α) (w : ℚ) :
    ((updAssoc m k (· + w)).map (·.2)).sum = (m.map (·.2)).sum + w := by
  induction m with
  | nil => simp [updAssoc]
  | cons kv t ih =>
    rcases kv with ⟨k', v⟩
    by_cases hk : k' = k
    · simp only [updAssoc, if_pos hk, List.map_cons, List.sum_cons]
      ring
    · simp only [updAssoc, if_neg hk, List.map_cons, List.sum_cons, ih]
      ring

lemma protoValuesOf_sum_aux (ps : List ((String × Protocol) × ℚ)) :
    ∀ acc : List (Protocol × ℚ),
      ((ps.foldl (fun m kv => updAssoc m kv.1.2 (· + kv.2)) acc).map (·.2)).sum =
        (acc.map (·.2)).sum + (ps.map (·.2)).sum := by
  induction ps with
  | nil => intro acc; simp
  | cons kv t ih =>
    intro acc
    simp only [List.foldl_cons, List.map_cons, List.sum_cons, ih, updAssoc_add_sum]
    ring

lemma protoValuesOf_sum (positions : List ((String × Protocol) × ℚ)) :
    ((protoValuesOf positions).map (·.2)).sum = totalValueOf positions := by
  unfold protoValuesOf totalValueOf
  rw [protoValuesOf_sum_aux positions []]
  simp

lemma largestPctOf_nonneg (positions : List ((String × Protocol) × ℚ)) :
    0 ≤ largestPctOf positions := by
  unfold largestPctOf
  split
  · rename_i htot
    unfold totalValueOf at htot
    exact div_nonneg (le_of_lt (listMaxD_pos htot)) (le_of_lt htot)
  · exact le_refl 0

lemma protoConcOf_nonneg (positions : List ((String × Protocol) × ℚ)) :
    0 ≤ protoConcOf positions := by
  unfold protoConcOf
  split
  · rename_i htot
    have hs : 0 < ((protoValuesOf positions).map (·.2)).sum := by
      rw [protoValuesOf_sum]; exact htot
    exact div_nonneg (le_of_lt (listMaxD_pos hs)) (le_of_lt htot)
  · exact le_refl 0

lemma castU8_min_eq (q : ℚ) (hq : 0 ≤ q) (c : ℕ) (hc : c ≤ 255) :
    ((min (castU8 q) c : ℕ) : ℤ) = min (c : ℤ) ⌊q⌋ := by
  unfold castU8
  have h0 : 0 ≤ ⌊q⌋ := Int.floor_nonneg.mpr hq
  have hc' : (c : ℤ) ≤ 255 := by exact_mod_cast hc
  push_cast [Int.toNat_of_nonneg h0]
  omega

lemma risk_score_formula (l p : ℚ) (hl : 0 ≤ l) (hp : 0 ≤ p)
    (nproto npos : ℕ) (hn : 1 ≤ nproto) :
    (calculate_risk_score l p nproto npos : ℤ) =
      min 100 (min 40 ⌊l * 40⌋ + min 30 ⌊p * 30⌋ +
        divPenaltySpec nproto + posFactorSpec npos) := by
  have h40 := castU8_min_eq (l * 40) (by positivity) 40 (by norm_num)
  have h30 := castU8_min_eq (p * 30) (by positivity) 30 (by norm_num)
  unfold calculate_risk_score posFactorSpec
  rcases nproto with _ | _ | _ | _ | n
  · exact absurd hn (by decide)
  all_goals (
    simp only [divPenaltySpec]
    split_ifs <;> (push_cast; omega))

lemma foldl_insertNew_len (l : List ParsedTransaction) :
    ∀ acc : List Protocol,
      acc.length ≤ (l.foldl (fun s tx => insertNew s tx.protocol) acc).length := by
  induction l with
  | nil => intro acc; exact le_refl _
  | cons t ts ih =>
    intro acc
    refine le_trans ?_ (ih (insertNew acc t.protocol))
    unfold insertNew
    split
    · exact le_refl _
    · simp

lemma protocolsOf_len_pos (txs : List ParsedTransaction) (h : txs ≠ []) :
    1 ≤ (protocolsOf txs).length := by
  cases txs with
  | nil => exact absurd rfl h
  | cons t ts =>
    unfold protocolsOf
    rw [List.foldl_cons]
    refine le_trans ?_ (foldl_insertNew_len ts (insertNew [] t.protocol))
    simp [insertNew]

/-! ## Claim C5 -/

/-- C5: the risk score computed by `compute_risk` equals the
specification's closed formula
`min(100, min(40, floor(largest · 40)) + min(30, floor(conc · 30)) +
diversification penalty + position-count factor)` for every non-empty
transaction list, and the concentrated single-position portfolio
`(SOL, Jupiter, 10000 USD)` scores exactly 95. -/
theorem C5_risk_score_contract :
    (∀ txs, txs ≠ [] →
      ((compute_risk txs).score : ℤ) =
        min 100 (min 40 ⌊(compute_risk txs).largest_position_pct * 40⌋ +
          min 30 ⌊(compute_risk txs).protocol_concentration * 30⌋ +
          divPenaltySpec (protocolsOf txs).length +
          posFactorSpec (compute_risk txs).position_count)) ∧
    (compute_risk [c5Tx]).score = 95 := by
  constructor
  · intro txs h
    rw [compute_risk, if_neg h]
    exact risk_score_formula _ _ (largestPctOf_nonneg _) (protoConcOf_nonneg _) _ _
      (protocolsOf_len_pos txs h)
  · have hpos : positionsOf [c5Tx] = [(("SOL", Protocol.Jupiter), 10000)] := by
      simp [positionsOf, updAssoc, c5Tx]
    have hprot : protocolsOf [c5Tx] = [Protocol.Jupiter] := by
      simp [protocolsOf, insertNew, c5Tx]
    rw [compute_risk, if_neg (by simp)]
    simp only [hpos, hprot]
    have hl : largestPctOf [(("SOL", Protocol.Jupiter), 10000)] = 1 := by
      norm_num [largestPctOf, totalValueOf, listMaxD]
    have hp : protoConcOf [(("SOL", Protocol.Jupiter), 10000)] = 1 := by
      norm_num [protoConcOf, totalValueOf, protoValuesOf, updAssoc, listMaxD]
    rw [hl, hp]
    norm_num [calculate_risk_score, castU8]
    decide

/-- C5 witness: the formula half of the theorem applied to the concrete
one-deposit portfolio. -/
theorem C5_risk_score_contract_witness :
    ((compute_risk [c5Tx]).score : ℤ) =
      min 100 (min 40 ⌊(compute_risk [c5Tx]).largest_position_pct * 40⌋ +
        min 30 ⌊(compute_risk [c5Tx]).protocol_concentration * 30⌋ +
        divPenaltySpec (protocolsOf [c5Tx]).length +
        posFactorSpec (compute_risk [c5Tx]).position_count) :=
  C5_risk_score_contract.1 [c5Tx] (by simp)

/-! ## Claim C2 -/

/-- C2: evaluation of the conviction engine at the specification's
alignment scenario.  The keyword table of `extract_market_asset` checks
the pattern `eth` before `sol `, and the title `Will SOL flip ETH?`
contains `eth`, so the extracted asset is `ETH`, no SOL position is
relevant, no signal is emitted, and the result is score 0 with Low
confidence — not the claimed single 0.925 signal with Medium confidence.
The repository's own unit test (`test_extract_market_asset`) expects
`SOL` for exactly this title, so the code contradicts its own test. -/
theorem C2_sol_flip_eth_divergence :
    extract_market_asset "Will SOL flip ETH?" "crypto" = some "ETH" ∧
      analyze_bet_conviction c2Bet [c2Position] = none ∧
      calculate_conviction c2Wallet =
        Except.ok
          { wallet := "W2"
            conviction_score := 0
            confidence := .Low
            signals := []
            interpretation := "No cross-domain signals detected. Wallet has no correlatable activity between DeFi and prediction markets." } :=
  ⟨by decide, by decide, rfl⟩

/-! ## Claim C8 -/

/-- C8: for a wallet with no DeFi positions and no prediction bets the
conviction operation returns `Ok` with the zero-score envelope
(conviction score 0, no signals, an explanatory interpretation string) —
never an error to the caller. -/
theorem C8_zero_score_envelope (addr : String) (total : ℚ) (risk : ℕ) (protos : List String) :
    get_wallet_conviction_core addr [] [] total risk protos =
      Except.ok (c8Envelope addr total protos) := rfl

/-! ## Manager lemmas -/

lemma lookup_removeKey (m : List (String × WalletSubscription)) (w : String) :
    (removeKey m w).lookup w = none := by
  induction m with
  | nil => rfl
  | cons kv t ih =>
    rcases kv with ⟨k, v⟩
    by_cases h : k = w
    · simpa [removeKey, List.filter_cons, h] using ih
    · simpa [removeKey, List.filter_cons, h, List.lookup,
        beq_eq_false_iff_ne.mpr (Ne.symm h)] using ih

lemma lookup_map_if (l : List (String × StreamTask)) (w : String)
    (g : StreamTask → StreamTask) :
    (l.map fun kv => if kv.1 = w then (kv.1, g kv.2) else kv).lookup w =
      (l.lookup w).map g := by
  induction l with
  | nil => rfl
  | cons kv t ih =>
    rcases kv with ⟨k, v⟩
    simp only [List.map_cons]
    by_cases h : k = w
    · rw [if_pos (show (k, v).1 = w from h)]
      subst h
      simp [List.lookup, ih]
    · rw [if_neg (show ¬(k, v).1 = w from h)]
      simp [List.lookup, ih, beq_eq_false_iff_ne.mpr (Ne.symm h)]

/-! ## Claim C7 -/

/-- C7: `stop_subscription` is idempotent — after one `stop(W)` the
second `stop(W)` returns NotRunning (`false`), leaves the subscription
map exactly as the first call left it, and fires no cancel signal. -/
theorem C7_stop_idempotent (w : String) (s : IndexerState) :
    stop_subscription w (stop_subscription w s).2.1 =
      (false, (stop_subscription w s).2.1, []) := by
  unfold stop_subscription
  rcases hl : s.subscriptions.lookup w with _ | sub
  · simp [hl]
  · simp [hl, lookup_removeKey]

/-! ## Claim C3 -/

/-- C3 counterexample: starting a subscription for `W3` and running its
stream through 10 consecutive failed connection epochs terminates the
stream task with Exhausted, yet `is_subscribed` still returns `true` and
`W3` still appears in `list_subscriptions` — the subscription is not
removed from the map. -/
theorem C3_exhaustion_not_removed_cex :
    streamTaskOf "W3" c3SysEx = some (.ended .exhausted) ∧
      is_subscribed "W3" c3SysEx.mgr = true ∧
      (list_subscriptions c3SysEx.mgr).map (·.wallet) = ["W3"] := by
  decide

/-- C3 (amended): when the attempt counter reaches 10 the stream task
terminates with Exhausted, but the manager map is untouched by the
stream task: the subscription stays registered (`is_subscribed` keeps
returning true, the wallet keeps appearing in `list()`) until an
explicit stop. -/
theorem C3_exhaustion_keeps_subscription (s : System) (w : String) (a : ℕ)
    (h : streamTaskOf w s = some (.running a)) (ha : 9 ≤ a) :
    streamTaskOf w (streamConnFail w s) = some (.ended .exhausted) ∧
      (streamConnFail w s).mgr = s.mgr := by
  refine ⟨?_, rfl⟩
  unfold streamTaskOf at h
  unfold streamTaskOf streamConnFail
  dsimp only
  rw [lookup_map_if, h]
  show some (if 10 ≤ a + 1 then StreamTask.ended StreamEndWhy.exhausted
      else StreamTask.running (a + 1)) =
    some (StreamTask.ended StreamEndWhy.exhausted)
  rw [if_pos (by omega)]

/-- C3 witness: the amended theorem applied to the concrete state after
nine failed epochs. -/
theorem C3_exhaustion_keeps_subscription_witness :
    streamTaskOf "W3" (streamConnFail "W3" c3Sys9) = some (.ended .exhausted) ∧
      (streamConnFail "W3" c3Sys9).mgr = c3Sys9.mgr :=
  C3_exhaustion_keeps_subscription c3Sys9 "W3" 9 (by decide) (by decide)

/-! ## Claim C6 -/

/-- C6 counterexample: a successful connect whose subscribe-frame send
fails is a disconnect after which the loop reconnects immediately — the
trace shows two consecutive connection attempts with no sleep between
them (the later 2000 ms sleep belongs to the subsequent connect
failure), so the claimed backoff does not precede every reconnect. -/
theorem C6_backoff_cex :
    runStreamLoop 0 [.subscribeSendFail, .connFail] =
      ([.connectAttempt, .connectAttempt, .sleepMs 2000], .looping 1) := by
  decide

/-- C6 (amended): after the k-th consecutive failed connection attempt
the client sleeps `1000 · 2^min(k, 6)` ms before reconnecting, and the
stream terminates (without a further sleep) at the 10th consecutive
failure; after a disconnect of an established stream the counter has
just been reset by the successful connect, so the sleep is
`1000 · 2^min(1, 6)` ms; but when sending the subscribe frame fails
right after a successful connect, the loop reconnects immediately with
no sleep and the counter stays at 0.  The counter resets to 0 on every
successful connection (the `streamDrop` and `subscribeSendFail`
outcomes are independent of the previous counter value). -/
theorem C6_backoff_amended :
    (∀ n, n < 10 →
      runStreamLoop 0 (List.replicate n .connFail) =
        ((List.range n).flatMap fun k => [.connectAttempt, .sleepMs (1000 * 2 ^ min (k + 1) 6)],
          .looping n)) ∧
    runStreamLoop 0 (List.replicate 10 .connFail) =
      (((List.range 9).flatMap fun k => [.connectAttempt, .sleepMs (1000 * 2 ^ min (k + 1) 6)]) ++
        [.connectAttempt], .terminated) ∧
    (∀ a, streamLoopStep a .streamDrop =
      ([.connectAttempt, .sleepMs (1000 * 2 ^ min 1 6)], .looping 1)) ∧
    (∀ a, streamLoopStep a .subscribeSendFail = ([.connectAttempt], .looping 0)) :=
  ⟨by decide, by decide, fun _ => rfl, fun _ => rfl⟩

/-- C6 witness: the backoff trace of the amended theorem at three
consecutive connect failures. -/
theorem C6_backoff_amended_witness :
    runStreamLoop 0 (List.replicate 3 .connFail) =
      ((List.range 3).flatMap fun k => [.connectAttempt, .sleepMs (1000 * 2 ^ min (k + 1) 6)],
        .looping 3) :=
  C6_backoff_amended.1 3 (by decide)

/-! ## Claim C10 -/

/-- C10: the per-wallet `tx_count` is incremented by exactly 1 for a
received record precisely when it parses into a ParsedTransaction and
its store insert succeeds; otherwise it is unchanged — so the final
count equals the number of stored transactions, not the number of
received records. -/
theorem C10_tx_count_stored :
    (∀ w count rec, processStep w count rec =
      if (parse_transaction rec.1 w).isSome ∧ rec.2 = true then count + 1 else count) ∧
    (∀ w events, process_transaction_stream w events =
      (events.filter fun rec => (parse_transaction rec.1 w).isSome && rec.2).length) := by
  constructor
  · intro w count rec
    rcases rec with ⟨tx, ok⟩
    unfold processStep
    rcases hp : parse_transaction tx w with _ | q <;> rcases ok <;> simp [hp]
  · intro w events
    unfold process_transaction_stream
    have haux : ∀ (evs : List (LysTransaction × Bool)) (acc : ℕ),
        evs.foldl (processStep w) acc =
          acc + (evs.filter fun rec => (parse_transaction rec.1 w).isSome && rec.2).length := by
      intro evs
      induction evs with
      | nil => intro acc; simp
      | cons rec t ih =>
        intro acc
        rcases rec with ⟨tx, ok⟩
        rw [List.foldl_cons, ih]
        unfold processStep
        rcases hp : parse_transaction tx w with _ | q <;> rcases ok <;>
          (simp [hp, List.filter_cons]; try omega)
    simpa using haux events 0
